import Mathlib

/-!
Verification development for the Volume_Simulation repository.

The definitions below are shallow embeddings of the Python source:

* `VolumeSim.check_collisions` embeds `Environment.check_collisions`
  (src/simulation/environment.py).  The aircraft of the ordered
  active `aircraft` mapping are represented by their (distinct) keys,
  listed in iteration order; their `terminated` attributes are a map
  `Nat → Int`; the pre-computed distance matrix is a function on keys.
  The function is generic in the linear order of the distances, since the
  source compares matrix entries only with `<`.

* `VolumeSim.Point`, `VolumeSim.Waypoint`, `VolumeSim.Route`,
  `VolumeSim.Aircraft` and their operations embed point.py, waypoint.py,
  route.py and aircraft.py.  Python floats are idealised as real numbers.
-/

namespace VolumeSim

/-- Setting the `terminated` attribute of one aircraft to `3`, as the two
assignments in `check_collisions` do. -/
def term3 (codes : Nat → Int) (k : Nat) : Nat → Int :=
  fun x => if x = k then 3 else codes x

/-- The inner enumeration loop (over `j, j_key`) of
`Environment.check_collisions`: `i` is the fixed outer aircraft (already
known to be unterminated when the inner loop starts), `codes` the current
termination codes, and the list argument the iteration order of the active
mapping.  A pair closer than `min_sep` has both members set to `3`. -/
def inner_loop [LinearOrder α] (dist : Nat → Nat → α) (min_sep : α) (i : Nat) :
    (Nat → Int) → List Nat → (Nat → Int)
  | codes, [] => codes
  | codes, j :: js =>
    if i = j ∨ 0 < codes j then inner_loop dist min_sep i codes js
    else if dist i j < min_sep then
      inner_loop dist min_sep i (term3 (term3 codes i) j) js
    else inner_loop dist min_sep i codes js

/-- The outer enumeration loop (over `i, key`) of
`Environment.check_collisions`: aircraft already terminated when their
iteration is reached are skipped (`continue`). -/
def outer_loop [LinearOrder α] (dist : Nat → Nat → α) (min_sep : α)
    (order : List Nat) : (Nat → Int) → List Nat → (Nat → Int)
  | codes, [] => codes
  | codes, i :: is' =>
    if 0 < codes i then outer_loop dist min_sep order codes is'
    else outer_loop dist min_sep order (inner_loop dist min_sep i codes order) is'

/-- `Environment.check_collisions(dist_matrix, min_sep)`
(src/simulation/environment.py, lines 280-304): both nested loops run over
the same iteration order of the active aircraft mapping. -/
def check_collisions [LinearOrder α] (dist : Nat → Nat → α) (min_sep : α)
    (order : List Nat) (codes : Nat → Int) : Nat → Int :=
  outer_loop dist min_sep order codes order

/-- A concrete symmetric distance matrix on three aircraft `0`, `1`, `2`:
`dist 0 1 = dist 1 2 = 10` and `dist 0 2 = 40` (realised e.g. by aircraft
at positions `(0,0)`, `(10,0)` is not needed; `(0,0)`, `(20,0)`, `(40,0)`
give `20, 20, 40`, any values below/above `min_sep = 25` work alike). -/
def d3 : Nat → Nat → ℚ :=
  fun i j => if i = j then 0 else if i + j = 1 then 10 else if i + j = 3 then 10 else 40

/-- All three aircraft start the tick active (`terminated == 0`). -/
def zero3 : Nat → Int := fun _ => 0

theorem term3_apply (codes : Nat → Int) (k x : Nat) :
    term3 codes k x = if x = k then 3 else codes x := rfl

theorem term3_eq_three (codes : Nat → Int) (k x : Nat) (h : codes x = 3) :
    term3 codes k x = 3 := by
  unfold term3
  by_cases hx : x = k <;> simp [hx, h]

theorem term3_eq_or (codes : Nat → Int) (k x : Nat) :
    term3 codes k x = codes x ∨ term3 codes k x = 3 := by
  unfold term3
  by_cases hx : x = k <;> simp [hx]

theorem inner_loop_eq_three [LinearOrder α] (dist : Nat → Nat → α) (min_sep : α)
    (i : Nat) (js : List Nat) (codes : Nat → Int) (k : Nat) (h : codes k = 3) :
    inner_loop dist min_sep i codes js k = 3 := by
  induction js generalizing codes with
  | nil => simpa [inner_loop] using h
  | cons j js ih =>
    unfold inner_loop
    by_cases h1 : i = j ∨ 0 < codes j
    · simp only [if_pos h1]
      exact ih codes h
    · simp only [if_neg h1]
      by_cases h2 : dist i j < min_sep
      · simp only [if_pos h2]
        exact ih _ (term3_eq_three _ _ _ (term3_eq_three _ _ _ h))
      · simp only [if_neg h2]
        exact ih codes h

theorem inner_loop_eq_or [LinearOrder α] (dist : Nat → Nat → α) (min_sep : α)
    (i : Nat) (js : List Nat) (codes : Nat → Int) (k : Nat) :
    inner_loop dist min_sep i codes js k = codes k ∨
      inner_loop dist min_sep i codes js k = 3 := by
  induction js generalizing codes with
  | nil => simp [inner_loop]
  | cons j js ih =>
    unfold inner_loop
    by_cases h1 : i = j ∨ 0 < codes j
    · simp only [if_pos h1]
      exact ih codes
    · simp only [if_neg h1]
      by_cases h2 : dist i j < min_sep
      · simp only [if_pos h2]
        rcases ih (term3 (term3 codes i) j) with h | h
        · rcases term3_eq_or (term3 codes i) j k with h' | h'
          · rcases term3_eq_or codes i k with h'' | h''
            · exact Or.inl (by rw [h, h', h''])
            · exact Or.inr (by rw [h, h', h''])
          · exact Or.inr (by rw [h, h'])
        · exact Or.inr h
      · simp only [if_neg h2]
        exact ih codes

theorem outer_loop_eq_three [LinearOrder α] (dist : Nat → Nat → α) (min_sep : α)
    (order : List Nat) (is' : List Nat) (codes : Nat → Int) (k : Nat)
    (h : codes k = 3) :
    outer_loop dist min_sep order codes is' k = 3 := by
  induction is' generalizing codes with
  | nil => simpa [outer_loop] using h
  | cons i is' ih =>
    unfold outer_loop
    by_cases h1 : 0 < codes i
    · simp only [if_pos h1]
      exact ih codes h
    · simp only [if_neg h1]
      exact ih _ (inner_loop_eq_three dist min_sep i order codes k h)

theorem outer_loop_eq_or [LinearOrder α] (dist : Nat → Nat → α) (min_sep : α)
    (order : List Nat) (is' : List Nat) (codes : Nat → Int) (k : Nat) :
    outer_loop dist min_sep order codes is' k = codes k ∨
      outer_loop dist min_sep order codes is' k = 3 := by
  induction is' generalizing codes with
  | nil => simp [outer_loop]
  | cons i is' ih =>
    unfold outer_loop
    by_cases h1 : 0 < codes i
    · simp only [if_pos h1]
      exact ih codes
    · simp only [if_neg h1]
      rcases ih (inner_loop dist min_sep i codes order) with h | h
      · rcases inner_loop_eq_or dist min_sep i order codes k with h' | h'
        · exact Or.inl (by rw [h, h'])
        · exact Or.inr (by rw [h, h'])
      · exact Or.inr h

theorem inner_loop_hits [LinearOrder α] (dist : Nat → Nat → α) (min_sep : α)
    (i : Nat) (js : List Nat) (codes : Nat → Int) (j : Nat)
    (hj : j ∈ js) (hij : i ≠ j) (hd : dist i j < min_sep)
    (hc : codes j = 0 ∨ codes j = 3) :
    inner_loop dist min_sep i codes js j = 3 := by
  rcases hc with hc | hc
  · induction js generalizing codes with
    | nil => cases hj
    | cons j' js ih =>
      unfold inner_loop
      rcases List.mem_cons.1 hj with rfl | hmem
      · have h1 : ¬(i = j ∨ 0 < codes j) := by
          push_neg
          exact ⟨hij, by omega⟩
        simp only [if_neg h1, if_pos hd]
        exact inner_loop_eq_three dist min_sep i js _ j (by simp [term3])
      · by_cases h1 : i = j' ∨ 0 < codes j'
        · simp only [if_pos h1]
          exact ih codes hmem hc
        · simp only [if_neg h1]
          by_cases h2 : dist i j' < min_sep
          · simp only [if_pos h2]
            by_cases hjj : j = j'
            · subst hjj
              exact inner_loop_eq_three dist min_sep i js _ j (by simp [term3])
            · refine ih _ hmem ?_
              have hji : ¬j = i := fun h => hij h.symm
              simp [term3, hjj, hji, hc]
          · simp only [if_neg h2]
            exact ih codes hmem hc
  · exact inner_loop_eq_three dist min_sep i js codes j hc

theorem outer_loop_pair [LinearOrder α] (dist : Nat → Nat → α) (min_sep : α)
    (order : List Nat) (is' : List Nat) (codes : Nat → Int) (i j : Nat)
    (hi : i ∈ is') (hj : j ∈ order) (hij : i ≠ j) (hd : dist i j < min_sep)
    (hci : codes i = 0 ∨ codes i = 3) (hcj : codes j = 0 ∨ codes j = 3) :
    outer_loop dist min_sep order codes is' i = 3 ∨
      outer_loop dist min_sep order codes is' j = 3 := by
  induction is' generalizing codes with
  | nil => cases hi
  | cons i' is' ih =>
    unfold outer_loop
    rcases List.mem_cons.1 hi with rfl | hmem
    · by_cases h1 : 0 < codes i
      · have h3 : codes i = 3 := by rcases hci with h | h <;> omega
        simp only [if_pos h1]
        exact Or.inl (outer_loop_eq_three dist min_sep order is' codes i h3)
      · simp only [if_neg h1]
        refine Or.inr (outer_loop_eq_three dist min_sep order is' _ j ?_)
        exact inner_loop_hits dist min_sep i order codes j hj hij hd hcj
    · by_cases h1 : 0 < codes i'
      · simp only [if_pos h1]
        exact ih codes hmem hci hcj
      · simp only [if_neg h1]
        have pres : ∀ k, codes k = 0 ∨ codes k = 3 →
            inner_loop dist min_sep i' codes order k = 0 ∨
              inner_loop dist min_sep i' codes order k = 3 := by
          intro k hk
          rcases inner_loop_eq_or dist min_sep i' order codes k with h | h
          · rw [h]; exact hk
          · exact Or.inr h
        exact ih _ hmem (pres i hci) (pres j hcj)

noncomputable section

open scoped Classical

/-- `Point` (src/geography/point.py): an x, y coordinate in the plane.
Python floats are idealised as real numbers. -/
structure Point where
  x : ℝ
  y : ℝ

/-- `Point.get` (point.py, lines 68-72). -/
def Point.get (p : Point) : ℝ × ℝ := (p.x, p.y)

/-- `Point.update(h, d)` (point.py, lines 52-66): move the point a distance
`d` in heading `h` (radians). -/
def Point.update (p : Point) (h d : ℝ) : Point :=
  ⟨p.x + d * Real.cos h, p.y + d * Real.sin h⟩

/-- `util.get_dist(p1, p2)` (src/utility/util.py, lines 21-33). -/
def get_dist (p1 p2 : Point) : ℝ :=
  Real.sqrt ((p2.x - p1.x) ^ 2 + (p2.y - p1.y) ^ 2)

/-- The Python builtin `round` to an integer: round-half-to-even. -/
def round_half_even (r : ℝ) : ℤ :=
  if Int.fract r = 1 / 2 then (if Even ⌊r⌋ then ⌊r⌋ else ⌊r⌋ + 1)
  else ⌊r + 1 / 2⌋

/-- The Python `round(x, n)` on a float, idealised over the reals. -/
def pyround (x : ℝ) (n : ℕ) : ℝ :=
  (round_half_even (x * 10 ^ n) : ℝ) / 10 ^ n

/-- The Python `%` on floats (sign follows the divisor):
`x % y = x - y * floor(x / y)`. -/
def pymod (x y : ℝ) : ℝ := x - y * ⌊x / y⌋

/-- `util.in_bound(bounds, pos)` (util.py, lines 53-67).  The source builds
`shapely.Polygon(bounds)` and returns `poly.contains(Point(pos))`.  Modelled
for the only polygons the repository constructs — the axis-aligned rectangle
corner lists `[tl, tr, br, bl]` built by `Waypoint.__init__` — as membership
in the open interior of the rectangle spanned by the two opposite corners:
the shapely `contains` predicate is false on the boundary. -/
def in_bound (bounds : List (ℝ × ℝ)) (pos : Point) : Prop :=
  match bounds with
  | [(x1, y1), _, (x3, y3), _] =>
    min x1 x3 < pos.x ∧ pos.x < max x1 x3 ∧ min y1 y3 < pos.y ∧ pos.y < max y1 y3
  | _ => False

/-- `util.dist_to_line(p1, p2, p3)` (util.py, lines 69-101): distance from
`p3` to the projection point on the line `p1`-`p2`, or `9e10` when the
projection falls outside the bounding box of the segment.  (Python raises
`ZeroDivisionError` for `p1 = p2`; the repository never calls it that way,
and the Lean convention `x / 0 = 0` stands in for that case.) -/
def dist_to_line (p1 p2 p3 : Point) : ℝ :=
  let dx := p2.x - p1.x
  let dy := p2.y - p1.y
  let det := dx * dx + dy * dy
  let a := (dy * (p3.y - p1.y) + dx * (p3.x - p1.x)) / det
  let cx := p1.x + a * dx
  let cy := p1.y + a * dy
  if ¬(min p1.x p2.x ≤ cx ∧ cx ≤ max p1.x p2.x) ∨
      ¬(min p1.y p2.y ≤ cy ∧ cy ≤ max p1.y p2.y) then 9e10
  else get_dist ⟨cx, cy⟩ p3

/-- `Waypoint` (src/geography/waypoint.py): a `Point` with an id and a
rectangular boundary.  (The `draw`/`dist_from` visual helpers carry no
state and are not modelled.) -/
structure Waypoint where
  _id : String
  x : ℝ
  y : ℝ
  bounds : List (ℝ × ℝ)

/-- `Waypoint.__init__(_id, x, y, x_pad, y_pad)` (waypoint.py, lines 48-72):
the boundary is the corner list `tl, tr, br, bl`. -/
def Waypoint.new (_id : String) (x y x_pad y_pad : ℝ) : Waypoint :=
  { _id := _id, x := x, y := y
    bounds := [(x - x_pad, y - y_pad), (x + x_pad, y - y_pad),
               (x + x_pad, y + y_pad), (x - x_pad, y + y_pad)] }

/-- The `Point` a `Waypoint` inherits from (class `Waypoint(Point)`). -/
def Waypoint.pos (w : Waypoint) : Point := ⟨w.x, w.y⟩

/-- `Waypoint.has_reached(apos)` (waypoint.py, lines 89-98). -/
def Waypoint.has_reached (w : Waypoint) (apos : Point) : Prop :=
  in_bound w.bounds apos

/-- `Route` (src/geography/route.py): `route` is the remaining queue of
waypoints after the cursor.  The derived `init_heading` field is only read
by aircraft generation and no claim refers to it, so it is not modelled. -/
structure Route where
  _id : String
  origional_route : List Waypoint
  start : Waypoint
  next_waypoint : Waypoint
  previous_waypoint : Waypoint
  route : List Waypoint

/-- `Route.__init__` together with `Route.init_route` (route.py, lines
71-114): fewer than two waypoints raise an `Exception`; otherwise the queue
is filled and the cursor initialised (`start = get()`, `next_waypoint =
get()`, `previous_waypoint = start`). -/
def Route.new (_id : String) (route : List Waypoint) : Except String Route :=
  match route with
  | p0 :: p1 :: rest =>
    Except.ok { _id := _id, origional_route := route, start := p0,
                next_waypoint := p1, previous_waypoint := p0, route := rest }
  | _ => Except.error "Route must have a start and end waypoint"

/-- The value `get_in_bound` returns: either a bare bool (the `max_dist ==
-1` branch returns `True` alone) or a `(bool, float)` pair. -/
inductive InBound where
  | bare (b : Bool)
  | tup (b : Bool) (d : ℝ)

/-- The Python subscript `r[0]` on a `get_in_bound` result: subscripting the bare bool
raises `TypeError`, modelled as `none`. -/
def InBound.sub0 : InBound → Option Bool
  | .bare _ => none
  | .tup b _ => some b

/-- `Route.get_in_bound(pos, max_dist, acc)` (route.py, lines 150-176). -/
def Route.get_in_bound (r : Route) (pos : Point) (max_dist : ℝ) (acc : ℕ) :
    InBound :=
  if max_dist = -1 then .bare true
  else
    let distance := pyround (dist_to_line r.previous_waypoint.pos r.next_waypoint.pos pos) acc
    if distance < max_dist then .tup true distance
    else .tup false distance

/-- `Route.dist_to_next(pos)` (route.py, lines 178-188). -/
def Route.dist_to_next (r : Route) (pos : Point) : ℝ :=
  pyround (get_dist r.next_waypoint.pos pos) 5

/-- `Route.update(ac_pos, wpt_dist, max_dist, acc)` (route.py, lines
116-148), as a function from the route state to the new route state paired
with the returned code: `some 1` arrived, `some 2` off course, `some 0` on
track, and `none` when evaluating `in_bound[0]` raises `TypeError` (the
bare-bool case).  The `wpt_dist` parameter is accepted and, as in the
source, never read; `dist_to_next` is likewise computed and discarded. -/
def Route.update (r : Route) (ac_pos : Point) (wpt_dist max_dist : ℝ)
    (acc : ℕ) : Route × Option ℤ :=
  let _d_next := r.dist_to_next ac_pos
  let in_b := r.get_in_bound ac_pos max_dist acc
  if r.next_waypoint.has_reached ac_pos then
    match r.route with
    | [] => (r, some 1)
    | w :: rest =>
      let r1 := { r with next_waypoint := w, route := rest }
      match in_b.sub0 with
      | none => (r1, none)
      | some b => if ¬b then (r1, some 2) else (r1, some 0)
  else
    match in_b.sub0 with
    | none => (r, none)
    | some b => if ¬b then (r, some 2) else (r, some 0)

/-- `Route.copy()` (route.py, lines 190-194): re-runs the constructor on
the original waypoint sequence. -/
def Route.copy (r : Route) : Except String Route :=
  Route.new r._id r.origional_route

/-- `math.radians(x)`: degrees to radians. -/
def radians (x : ℝ) : ℝ := x * (Real.pi / 180)

/-- `Aircraft` (src/simulation/aircraft.py).  The purely visual constants
`size`, `boarder_size` and `text_boost` are derived in `__init__`, never
read by the stepping logic, and not modelled. -/
structure Aircraft where
  _id : String
  position : Point
  spd : ℝ
  tas : ℝ
  alt : ℝ
  heading : ℝ
  scale : ℝ
  route : Option Route
  path : List (ℝ × ℝ)
  updater : ℕ
  point_constant : ℕ
  terminated : ℤ

/-- `Aircraft.__init__(_id, start_pos, spd, alt, heading, scale, route)`
(aircraft.py, lines 96-138): note `spd = (min(45, spd) / scale) / 60` and
`heading = (heading * -1) % 360`. -/
def Aircraft.new (_id : String) (start_pos : Point) (spd alt heading scale : ℝ)
    (route : Option Route) : Aircraft :=
  { _id := _id
    position := ⟨start_pos.x, start_pos.y⟩
    spd := min 45 spd / scale / 60
    tas := spd
    alt := alt
    heading := pymod (heading * (-1)) 360
    scale := scale
    route := route
    path := []
    updater := 0
    point_constant := 18
    terminated := 0 }

/-- `Aircraft.update_position()` (aircraft.py, lines 169-178): the stored
speed is divided by `scale` once more before the move. -/
def Aircraft.update_position (a : Aircraft) : Aircraft :=
  let hdg := pymod (a.heading - 180) 360
  let hdg2 := Real.pi / 2 - radians hdg
  let sim_speed := a.spd / a.scale
  { a with position := a.position.update hdg2 sim_speed }

/-- `Aircraft.in_world(bounds)` (aircraft.py, lines 180-192). -/
def Aircraft.in_world (a : Aircraft) (bounds : ℝ × ℝ) : Prop :=
  (0 ≤ a.position.x ∧ a.position.x ≤ bounds.1) ∧
    (0 ≤ a.position.y ∧ a.position.y ≤ bounds.2)

/-- The path-recording conditional of `Aircraft.step` (aircraft.py, lines
154-156): `if (self.updater % self.point_constant) * self.scale == 0:
self.path.append(self.position.get())`. -/
def Aircraft.step_path (a : Aircraft) : Aircraft :=
  if ((a.updater % a.point_constant : ℕ) : ℝ) * a.scale = 0
  then { a with path := a.path ++ [a.position.get] } else a

/-- The out-of-world conditional of `Aircraft.step` (aircraft.py, lines
163-164): `if self.terminated == 0 and not self.in_world(bounds):
self.terminated = 2`. -/
def Aircraft.step_world (a : Aircraft) (bounds : ℝ × ℝ) : Aircraft :=
  if a.terminated = 0 ∧ ¬a.in_world bounds then { a with terminated := 2 } else a

/-- `Aircraft.step(bounds)` (aircraft.py, lines 141-166): move, possibly
record the path point (`step_path`), reset `terminated` to `0`, re-derive
it from the route update and the world bounds (`step_world`), and bump
`updater`.  `none` models the `TypeError` that `Route.update` can raise
escaping from `step`. -/
def Aircraft.step (a : Aircraft) (bounds : ℝ × ℝ) : Option Aircraft :=
  let a3 := { a.update_position.step_path with terminated := 0 }
  match a3.route with
  | none =>
    let a4 := a3.step_world bounds
    some { a4 with updater := a4.updater + 1 }
  | some rt =>
    match rt.update a3.position 10 25 3 with
    | (_, none) => none
    | (rt', some code) =>
      let a4 := { a3 with route := some rt', terminated := code }
      let a5 := a4.step_world bounds
      some { a5 with updater := a5.updater + 1 }

/-- `Environment.get_distance_matrix()` (src/simulation/environment.py,
lines 362-379), as a function of the active aircraft positions in
iteration order: an `n × n` matrix starting from `np.zeros`, whose
off-diagonal in-range entries are `round(get_dist(p_i, p_j), 3)`. -/
def get_distance_matrix (ps : List Point) (i j : ℕ) : ℝ :=
  if i = j then 0
  else if h : i < ps.length ∧ j < ps.length then
    pyround (get_dist (ps.get ⟨i, h.1⟩) (ps.get ⟨j, h.2⟩)) 3
  else 0

/-- The concrete waypoints of the test scenario: `A` at the origin, `B` at
`(100, 0)`, `C` at `(200, 0)`, each with the default `25 × 50` padding. -/
def wA : Waypoint := Waypoint.new "A" 0 0 25 50

def wB : Waypoint := Waypoint.new "B" 100 0 25 50

def wC : Waypoint := Waypoint.new "C" 200 0 25 50

/-- The two-waypoint route `A → B` with its cursor at the final leg
(exactly the state `Route.new "R" [wA, wB]` constructs). -/
def rAB : Route :=
  { _id := "R", origional_route := [wA, wB], start := wA,
    next_waypoint := wB, previous_waypoint := wA, route := [] }

/-- The three-waypoint route `A → B → C` in its freshly constructed state
(`Route.new "R" [wA, wB, wC]`): next waypoint `B`, queue `[C]`. -/
def rABC : Route :=
  { _id := "R", origional_route := [wA, wB, wC], start := wA,
    next_waypoint := wB, previous_waypoint := wA, route := [wC] }

/-- A route over `[wA, wB, wC]` whose cursor has already advanced past `B`
(the state after the aircraft reached `B`). -/
def rABC_adv : Route :=
  { _id := "R", origional_route := [wA, wB, wC], start := wA,
    next_waypoint := wC, previous_waypoint := wA, route := [] }

/-- The fresh cursor `Route.copy` rebuilds from `[wA, wB, wC]`. -/
def rABC_fresh : Route :=
  { _id := "R", origional_route := [wA, wB, wC], start := wA,
    next_waypoint := wB, previous_waypoint := wA, route := [wC] }

end

open scoped Classical

theorem get_dist_symm (p q : Point) : get_dist p q = get_dist q p := by
  unfold get_dist
  congr 1
  ring

theorem get_dist_update (p : Point) (h d : ℝ) :
    get_dist p (p.update h d) = |d| := by
  simp only [get_dist, Point.update]
  have key : (p.x + d * Real.cos h - p.x) ^ 2 + (p.y + d * Real.sin h - p.y) ^ 2
      = d ^ 2 := by
    linear_combination d ^ 2 * Real.sin_sq_add_cos_sq h
  rw [key]
  exact Real.sqrt_sq_eq_abs d

theorem update_fst_cases (r : Route) (pos : Point) (wd md : ℝ) (acc : ℕ) :
    (Route.update r pos wd md acc).1 = r ∨
      ∃ w rest, r.route = w :: rest ∧
        (Route.update r pos wd md acc).1 =
          { r with next_waypoint := w, route := rest } := by
  simp only [Route.update]
  by_cases hr : r.next_waypoint.has_reached pos
  · rw [if_pos hr]
    rcases hq : r.route with _ | ⟨w, rest⟩
    · exact Or.inl rfl
    · refine Or.inr ⟨w, rest, rfl, ?_⟩
      rcases hsub : (Route.get_in_bound r pos md acc).sub0 with _ | b
      · rfl
      · cases b <;> simp
  · rw [if_neg hr]
    rcases hsub : (Route.get_in_bound r pos md acc).sub0 with _ | b
    · exact Or.inl rfl
    · cases b <;> simp

theorem update_fst_advances (r : Route) (pos : Point) (wd md : ℝ) (acc : ℕ)
    (w : Waypoint) (rest : List Waypoint)
    (hr : r.next_waypoint.has_reached pos) (hq : r.route = w :: rest)
    (hmd : md ≠ -1) :
    (Route.update r pos wd md acc).1 =
      { r with next_waypoint := w, route := rest } := by
  simp only [Route.update]
  rw [if_pos hr, hq]
  simp only [Route.get_in_bound, if_neg hmd]
  by_cases hc : pyround (dist_to_line r.previous_waypoint.pos r.next_waypoint.pos pos) acc < md
  · rw [if_pos hc]
    simp [InBound.sub0]
  · rw [if_neg hc]
    simp [InBound.sub0]

/-- Claim C10: `get_distance_matrix` on any list of active-aircraft
positions is symmetric (`matrix[i][j] = matrix[j][i]`) and has a zero
diagonal (`matrix[i][i] = 0`). -/
theorem c10_distance_matrix (ps : List Point) (i j : ℕ) :
    get_distance_matrix ps i j = get_distance_matrix ps j i ∧
      get_distance_matrix ps i i = 0 := by
  constructor
  · by_cases hij : i = j
    · rw [hij]
    · unfold get_distance_matrix
      rw [if_neg hij, if_neg (Ne.symm hij)]
      by_cases h : i < ps.length ∧ j < ps.length
      · rw [dif_pos h, dif_pos ⟨h.2, h.1⟩, get_dist_symm]
      · rw [dif_neg h, dif_neg (fun hc => h ⟨hc.2, hc.1⟩)]
  · simp [get_distance_matrix]

/-- Claim C7: updating a route whose remaining queue is empty with a
position inside the region of the final waypoint returns `ARRIVED` (code 1) and
leaves the whole route state — cursor included — unchanged. -/
theorem c7_update_arrived (r : Route) (pos : Point) (wd md : ℝ) (acc : ℕ)
    (hq : r.route = []) (hr : r.next_waypoint.has_reached pos) :
    Route.update r pos wd md acc = (r, some 1) := by
  simp only [Route.update]
  rw [if_pos hr, hq]

theorem reach_B : Waypoint.has_reached wB ⟨99, 1⟩ := by
  simp only [Waypoint.has_reached, in_bound, wB, Waypoint.new]
  norm_num [min_def, max_def]

theorem c7_update_arrived_witness :
    Waypoint.has_reached wB ⟨99, 1⟩ ∧
      Route.update rAB ⟨99, 1⟩ 10 25 3 = (rAB, some 1) :=
  ⟨reach_B, c7_update_arrived rAB ⟨99, 1⟩ 10 25 3 rfl reach_B⟩

/-- Claim C8: `Route` construction fails exactly when fewer than two
waypoints are supplied; with two or more it succeeds and initialises
`start` to the first element, `next_waypoint` to the second,
`previous_waypoint` to `start`, and the queue to the rest. -/
theorem c8_route_new (id : String) (wps : List Waypoint) :
    ((∃ e, Route.new id wps = Except.error e) ↔ wps.length < 2) ∧
      ∀ r, Route.new id wps = Except.ok r →
        wps.get? 0 = some r.start ∧ wps.get? 1 = some r.next_waypoint ∧
          r.previous_waypoint = r.start ∧ r.route = wps.drop 2 ∧
          r.origional_route = wps := by
  rcases wps with _ | ⟨a, _ | ⟨b, t⟩⟩
  · exact ⟨by simp [Route.new], fun r h => by simp [Route.new] at h⟩
  · exact ⟨by simp [Route.new], fun r h => by simp [Route.new] at h⟩
  · constructor
    · simp only [Route.new, List.length_cons]
      constructor
      · rintro ⟨e, h⟩
        cases h
      · omega
    · intro r h
      simp only [Route.new, Except.ok.injEq] at h
      subst h
      simp

theorem c8_route_new_witness :
    ¬([wA, wB] : List Waypoint).length < 2 ∧
      ([wA, wB].get? 1 = some rAB.next_waypoint ∧ rAB.route = [wA, wB].drop 2) :=
  ⟨by decide,
    ⟨((c8_route_new "R" [wA, wB]).2 rAB rfl).2.1,
      ((c8_route_new "R" [wA, wB]).2 rAB rfl).2.2.2.1⟩⟩

/-- Claim C9: `copy` rebuilds a route whose cursor is freshly
re-initialised from the original ordered waypoint sequence (whatever the
cursor state of the route being copied), and advancing a copy with
`update` leaves its original waypoint sequence — hence any further copy —
untouched. -/
theorem c9_copy_reinitializes (r c : Route) (h : Route.copy r = Except.ok c) :
    r.origional_route.get? 0 = some c.start ∧
      r.origional_route.get? 1 = some c.next_waypoint ∧
      c.previous_waypoint = c.start ∧
      c.route = r.origional_route.drop 2 ∧
      c.origional_route = r.origional_route ∧
      ∀ pos wd md acc, Route.copy (Route.update c pos wd md acc).1 = Route.copy c := by
  unfold Route.copy at h
  have hcopy : ∀ pos wd md acc,
      Route.copy (Route.update c pos wd md acc).1 = Route.copy c := by
    intro pos wd md acc
    rcases update_fst_cases c pos wd md acc with h1 | ⟨w, rest, _, h1⟩ <;>
      simp [Route.copy, h1]
  unfold Route.new at h
  rcases hor : r.origional_route with _ | ⟨a, _ | ⟨b, t⟩⟩ <;> rw [hor] at h
  · cases h
  · cases h
  · simp only [Except.ok.injEq] at h
    subst h
    exact ⟨rfl, rfl, rfl, rfl, rfl, hcopy⟩

theorem c9_copy_reinitializes_witness :
    rABC_adv.origional_route.get? 1 = some rABC_fresh.next_waypoint ∧
      Route.copy rABC_adv = Except.ok rABC_fresh :=
  ⟨(c9_copy_reinitializes rABC_adv rABC_fresh rfl).2.1, rfl⟩

/-- Claim C1 (corrected): a pair of active aircraft closer than `min_sep`
need not END the pass with both codes `3` — an aircraft terminated earlier
in the same pass is skipped — but at least one of the two ends with code
`3`, and whenever the triggering check fires it sets both at once (see
`inner_loop`).  The terminated set does depend on iteration order. -/
theorem c1_close_pair_terminates_one [LinearOrder α] (dist : Nat → Nat → α)
    (min_sep : α) (order : List Nat) (codes : Nat → Int) (i j : Nat)
    (hi : i ∈ order) (hj : j ∈ order) (hij : i ≠ j)
    (hd : dist i j < min_sep) (hci : codes i = 0) (hcj : codes j = 0) :
    check_collisions dist min_sep order codes i = 3 ∨
      check_collisions dist min_sep order codes j = 3 :=
  outer_loop_pair dist min_sep order order codes i j hi hj hij hd
    (Or.inl hci) (Or.inl hcj)

/-- Claim C1 is false as stated: with aircraft `0, 1, 2` at mutual
distances `d(0,1) = d(1,2) = 10 < 25 = min_sep`, `d(0,2) = 40`, the active
pair `(1, 2)` is closer than `min_sep` yet aircraft `2` ends the pass with
code `0` (aircraft `1` was terminated by the earlier pair `(0, 1)` and is
skipped), and reversing the iteration order changes which aircraft end up
terminated. -/
theorem c1_counterexample :
    d3 1 2 < 25 ∧ zero3 1 = 0 ∧ zero3 2 = 0 ∧
      check_collisions d3 25 [0, 1, 2] zero3 2 ≠ 3 ∧
      check_collisions d3 25 [0, 1, 2] zero3 0 ≠
        check_collisions d3 25 [2, 1, 0] zero3 0 := by
  refine ⟨by norm_num [d3], rfl, rfl, ?_, ?_⟩ <;> decide

theorem c1_close_pair_terminates_one_witness :
    ((0 : Nat) ∈ [0, 1, 2] ∧ (1 : Nat) ∈ [0, 1, 2] ∧ (0 : Nat) ≠ 1 ∧
        d3 0 1 < 25 ∧ zero3 0 = 0 ∧ zero3 1 = 0) ∧
      (check_collisions d3 25 [0, 1, 2] zero3 0 = 3 ∨
        check_collisions d3 25 [0, 1, 2] zero3 1 = 3) :=
  ⟨⟨by decide, by decide, by decide, by norm_num [d3], rfl, rfl⟩,
    c1_close_pair_terminates_one d3 25 [0, 1, 2] zero3 0 1
      (by decide) (by decide) (by decide) (by norm_num [d3]) rfl rfl⟩

/-- Claim C6 is false as stated: the point `(25, 0)` lies exactly on the
edge of the `25 × 50` rectangle around the waypoint at the origin, and
`has_reached` (the shapely `contains` predicate) returns false there. -/
theorem c6_counterexample :
    ¬(Waypoint.new "W" 0 0 25 50).has_reached ⟨25, 0⟩ := by
  simp only [Waypoint.has_reached, in_bound, Waypoint.new]
  norm_num [min_def, max_def]

/-- Claim C6 (corrected): for nonnegative paddings, `has_reached` holds
exactly on the OPEN interior of the waypoint rectangle — the boundary is
exclusive, not inclusive. -/
theorem c6_has_reached_open_interior (id : String) (x y a b : ℝ) (p : Point)
    (ha : 0 ≤ a) (hb : 0 ≤ b) :
    (Waypoint.new id x y a b).has_reached p ↔
      (x - a < p.x ∧ p.x < x + a ∧ y - b < p.y ∧ p.y < y + b) := by
  have h1 : min (x - a) (x + a) = x - a := min_eq_left (by linarith)
  have h2 : max (x - a) (x + a) = x + a := max_eq_right (by linarith)
  have h3 : min (y - b) (y + b) = y - b := min_eq_left (by linarith)
  have h4 : max (y - b) (y + b) = y + b := max_eq_right (by linarith)
  simp only [Waypoint.has_reached, in_bound, Waypoint.new, h1, h2, h3, h4]

theorem c6_has_reached_open_interior_witness :
    (0 : ℝ) ≤ 25 ∧ (0 : ℝ) ≤ 50 ∧
      (Waypoint.new "W" 0 0 25 50).has_reached ⟨0, 0⟩ :=
  ⟨by norm_num, by norm_num,
    (c6_has_reached_open_interior "W" 0 0 25 50 ⟨0, 0⟩ (by norm_num)
      (by norm_num)).mpr (by norm_num)⟩

/-- Claim C3 is a code bug: with deviation checking disabled
(`max_dist = -1`), `get_in_bound` returns the bare bool `True` and
`update` then evaluates `in_bound[0]`, raising `TypeError` (modelled as
the `none` result) instead of returning normally.  Here the aircraft at
`(50, 60)` has not reached waypoint `B`, so the early `ARRIVED` return
does not save it. -/
theorem c3_update_crashes_when_disabled :
    Route.update rAB ⟨50, 60⟩ 10 (-1) 3 = (rAB, none) := by
  have hnr : ¬Waypoint.has_reached rAB.next_waypoint ⟨50, 60⟩ := by
    simp only [rAB, Waypoint.has_reached, in_bound, wB, Waypoint.new]
    norm_num [min_def, max_def]
  have hib : Route.get_in_bound rAB ⟨50, 60⟩ (-1) 3 = .bare true := by
    simp [Route.get_in_bound]
  simp only [Route.update, if_neg hnr, hib, InBound.sub0]

/-- Claim C4 is a code bug: when the arrival test passes and the queue is
non-empty, `update` pops the queue into `next_waypoint` but never assigns
`previous_waypoint`, which keeps its stale value (`A`) instead of the old
`next_waypoint` (`B`). -/
theorem c4_previous_waypoint_not_advanced :
    (Route.update rABC ⟨99, 1⟩ 10 25 3).1.next_waypoint = wC ∧
      (Route.update rABC ⟨99, 1⟩ 10 25 3).1.route = [] ∧
      (Route.update rABC ⟨99, 1⟩ 10 25 3).1.previous_waypoint = wA ∧
      wA ≠ wB := by
  have hr : Waypoint.has_reached rABC.next_waypoint ⟨99, 1⟩ := reach_B
  have h1 := update_fst_advances rABC ⟨99, 1⟩ 10 25 3 wC [] hr rfl (by norm_num)
  refine ⟨by rw [h1], by rw [h1], by rw [h1]; rfl, ?_⟩
  intro h
  have hx := congrArg Waypoint.x h
  norm_num [wA, wB, Waypoint.new] at hx

theorem floor_neg_half : ⌊(-180 : ℝ) / 360⌋ = -1 := by
  rw [Int.floor_eq_iff]
  norm_num

theorem pymod_neg180 : pymod ((0 : ℝ) - 180) 360 = 180 := by
  have h : ((0 : ℝ) - 180) / 360 = -180 / 360 := by ring
  unfold pymod
  rw [h, floor_neg_half]
  norm_num

/-- With internal heading `0`, the converted heading in `update_position` is
`π/2 - π`, so a step moves straight down by the step distance. -/
theorem point_update_south (p : Point) (d : ℝ) :
    p.update (Real.pi / 2 - radians 180) d = ⟨p.x, p.y - d⟩ := by
  have h2 : radians 180 = Real.pi := by
    unfold radians
    ring
  unfold Point.update
  rw [h2]
  have hc : Real.cos (Real.pi / 2 - Real.pi) = 0 := by
    rw [Real.cos_pi_div_two_sub, Real.sin_pi]
  have hs : Real.sin (Real.pi / 2 - Real.pi) = -1 := by
    rw [Real.sin_pi_div_two_sub, Real.cos_pi]
  rw [hc, hs]
  congr 1 <;> ring

theorem update_position_heading_zero (a : Aircraft) (hh : a.heading = 0) :
    a.update_position =
      { a with position := ⟨a.position.x, a.position.y - a.spd / a.scale⟩ } := by
  simp only [Aircraft.update_position, hh]
  rw [pymod_neg180, point_update_south]

theorem update_position_terminated_update (a : Aircraft) (t : ℤ) :
    ({ a with terminated := t } : Aircraft).update_position
      = { a.update_position with terminated := t } := by
  cases a
  rfl

theorem step_path_terminated_update (a : Aircraft) (t : ℤ) :
    ({ a with terminated := t } : Aircraft).step_path
      = { a.step_path with terminated := t } := by
  cases a with
  | mk i po sp ta al he sc ro pa up pc te =>
    simp only [Aircraft.step_path]
    by_cases h : ((up % pc : ℕ) : ℝ) * sc = 0
    · rw [if_pos h, if_pos h]
    · rw [if_neg h, if_neg h]

theorem step_path_route (a : Aircraft) : a.step_path.route = a.route := by
  unfold Aircraft.step_path
  by_cases h : ((a.updater % a.point_constant : ℕ) : ℝ) * a.scale = 0
  · rw [if_pos h]
  · rw [if_neg h]

theorem step_path_position (a : Aircraft) : a.step_path.position = a.position := by
  unfold Aircraft.step_path
  by_cases h : ((a.updater % a.point_constant : ℕ) : ℝ) * a.scale = 0
  · rw [if_pos h]
  · rw [if_neg h]

theorem step_world_terminated (a : Aircraft) (bounds : ℝ × ℝ) :
    (a.step_world bounds).terminated =
      if a.terminated = 0 ∧ ¬a.in_world bounds then 2 else a.terminated := by
  unfold Aircraft.step_world
  by_cases h : a.terminated = 0 ∧ ¬a.in_world bounds
  · rw [if_pos h, if_pos h]
  · rw [if_neg h, if_neg h]

/-- Claim C2 (corrected): `Aircraft.step` has no guard on `terminated` —
its entire result is independent of the prior termination code, which it
resets to `0` and recomputes from the route and world bounds (the engine,
not `step`, keeps terminated aircraft from being stepped again). -/
theorem c2_step_ignores_prior_termination (a : Aircraft) (t : ℤ)
    (bounds : ℝ × ℝ) :
    Aircraft.step { a with terminated := t } bounds = Aircraft.step a bounds := by
  simp only [Aircraft.step, update_position_terminated_update,
    step_path_terminated_update]

/-- An aircraft that was terminated for leaving the world (`code 2`),
sitting at `(5, 5)` with internal heading `0`, per-tick speed `1/2`, no
route, inside the `10 × 10` world. -/
noncomputable def ac2 : Aircraft :=
  { _id := "A", position := ⟨5, 5⟩, spd := 1 / 2, tas := 30, alt := 100,
    heading := 0, scale := 1, route := none, path := [], updater := 0,
    point_constant := 18, terminated := 2 }

/-- Claim C2 is false as stated: stepping the terminated aircraft `ac2`
is not a no-op — its termination code is recomputed to `0` (and its
position moves). -/
theorem c2_counterexample :
    ac2.terminated = 2 ∧
      Option.map Aircraft.terminated (ac2.step (10, 10)) = some 0 := by
  refine ⟨rfl, ?_⟩
  have hup : ac2.update_position = { ac2 with position := ⟨5, 9 / 2⟩ } := by
    rw [update_position_heading_zero ac2 rfl]
    norm_num [ac2]
  have hroute : ({ ac2.update_position.step_path with terminated := 0 } :
      Aircraft).route = none := by
    rw [hup]
    simp [step_path_route, ac2]
  have hpos : ac2.update_position.step_path.position = ⟨5, 9 / 2⟩ := by
    rw [hup]
    simp [step_path_position, ac2]
  simp only [Aircraft.step]
  rw [hroute]
  simp only [Option.map_some']
  rw [step_world_terminated]
  simp only [Aircraft.in_world, hpos]
  norm_num

/-- The distance `update_position` moves a freshly constructed aircraft:
the stored per-tick speed `min(45, spd)/scale/60` divided by `scale` once
more. -/
theorem aircraft_new_displacement (id : String) (p : Point)
    (spd alt heading scale : ℝ) (rt : Option Route) :
    get_dist (Aircraft.new id p spd alt heading scale rt).position
        ((Aircraft.new id p spd alt heading scale rt).update_position.position) =
      |min 45 spd / scale / 60 / scale| := by
  have h1 : (Aircraft.new id p spd alt heading scale rt).update_position.position =
      Point.update (Aircraft.new id p spd alt heading scale rt).position
        (Real.pi / 2 -
          radians (pymod ((Aircraft.new id p spd alt heading scale rt).heading - 180) 360))
        ((Aircraft.new id p spd alt heading scale rt).spd /
          (Aircraft.new id p spd alt heading scale rt).scale) := rfl
  rw [h1, get_dist_update]
  rfl

/-- Claim C5 (corrected): for a nonnegative configured speed and positive
scale, one `update_position` step moves the aircraft by
`min(45, spd)/scale/60/scale` — the clamp-scale-convert value of the claim
divided by `scale` a second time in `update_position`. -/
theorem c5_step_displacement (id : String) (p : Point)
    (spd alt heading scale : ℝ) (rt : Option Route)
    (hspd : 0 ≤ spd) (hscale : 0 < scale) :
    get_dist (Aircraft.new id p spd alt heading scale rt).position
        ((Aircraft.new id p spd alt heading scale rt).update_position.position) =
      min 45 spd / scale / 60 / scale := by
  rw [aircraft_new_displacement]
  have hmin : 0 ≤ min 45 spd := le_min (by norm_num) hspd
  exact abs_of_nonneg
    (div_nonneg (div_nonneg (div_nonneg hmin hscale.le) (by norm_num)) hscale.le)

/-- Claim C5 is false as stated: with `spd = 30` and `scale = 2` the step
displacement is `0.125`, not `min(45, 30)/2/60 = 0.25`. -/
theorem c5_counterexample :
    get_dist (Aircraft.new "A" ⟨0, 0⟩ 30 100 0 2 none).position
        ((Aircraft.new "A" ⟨0, 0⟩ 30 100 0 2 none).update_position.position) ≠
      min 45 30 / 2 / 60 := by
  rw [aircraft_new_displacement]
  rw [show min (45 : ℝ) 30 = 30 from min_eq_right (by norm_num)]
  rw [abs_of_nonneg (by norm_num : (0 : ℝ) ≤ 30 / 2 / 60 / 2)]
  norm_num

theorem c5_step_displacement_witness :
    (0 : ℝ) ≤ 30 ∧ (0 : ℝ) < 2 ∧
      get_dist (Aircraft.new "A" ⟨0, 0⟩ 30 100 0 2 none).position
          ((Aircraft.new "A" ⟨0, 0⟩ 30 100 0 2 none).update_position.position) =
        min 45 30 / 2 / 60 / 2 :=
  ⟨by norm_num, by norm_num,
    c5_step_displacement "A" ⟨0, 0⟩ 30 100 0 2 none (by norm_num) (by norm_num)⟩

end VolumeSim
